import Mathlib

/-!
Verification of the Mandelbrot-set visualizer (src/main.py).

The per-pixel escape-time kernel, the pixel-to-complex-plane mapping, the
color-index computation, the input-driven parameter controller and the
delta-time helper are embedded as pure Lean functions over exact rationals
(standing for the numeric values the program computes).  The display,
event-polling and texture-loading plumbing is out of scope; the reference
texture is modelled abstractly by its dimensions and a pixel lookup.
-/

namespace Mandelbrot

/-- Display width (src/main.py line 7: `res = width, height = 800, 450`). -/
def width : ℕ := 800

/-- Display height (src/main.py line 7). -/
def height : ℕ := 450

/-- First component of `offset = np.array([1.3 * width, height]) // 2`
(src/main.py line 9): elementwise floor division by 2. -/
def offset0 : ℤ := ⌊(13 / 10 : ℚ) * (width : ℚ) / 2⌋

/-- Second component of `offset = np.array([1.3 * width, height]) // 2`
(src/main.py line 9). -/
def offset1 : ℤ := ⌊(height : ℚ) / 2⌋

/-- A 2-vector of rationals, standing for the `ti.Vector([.., ..])` values
used for `c` and `z` in the render kernel. -/
structure Vec2 where
  x : ℚ
  y : ℚ
  deriving DecidableEq

/-- The dot product `z.dot(z)` used in the escape test (src/main.py line 69). -/
def Vec2.dot (z : Vec2) : ℚ := z.x * z.x + z.y * z.y

/-- One Mandelbrot update
`z = ti.Vector([(z.x ** 2 - z.y ** 2 + c.x), (2 * z.x * z.y + c.y)])`
(src/main.py lines 67-68). -/
def mandelStep (z c : Vec2) : Vec2 :=
  ⟨z.x ^ 2 - z.y ^ 2 + c.x, 2 * z.x * z.y + c.y⟩

/-- The body of `for i in range(max_iter)` (src/main.py lines 66-71):
first update `z`, then break if `z.dot(z) > 4`, else increment `num_iter`.
Arguments: current `z`, current `num_iter`, remaining loop iterations. -/
def renderLoop (c : Vec2) : Vec2 → ℕ → ℕ → ℕ
  | _, numIter, 0 => numIter
  | z, numIter, n + 1 =>
    let z' := mandelStep z c
    if 4 < z'.dot then numIter else renderLoop c z' (numIter + 1) n

/-- The iteration count computed by the kernel for the complex point `c`:
`z` starts at `(0, 0)` and `num_iter` at `0` (src/main.py lines 63-71). -/
def num_iter (c : Vec2) (maxIter : ℕ) : ℕ :=
  renderLoop c ⟨0, 0⟩ 0 maxIter

/-- The `n`-th iterate of the Mandelbrot recurrence from `z = (0,0)`,
used to express that a point never triggers the escape condition. -/
def zIter (c : Vec2) : ℕ → Vec2
  | 0 => ⟨0, 0⟩
  | n + 1 => mandelStep (zIter c n) c

/-- Pixel-to-complex-plane mapping of the kernel (src/main.py lines 61-62):
`c = ti.Vector([(x - offset[0]) * zoom - dx, (y - offset[1]) * zoom - dy])`. -/
def pixelToC (x y : ℕ) (zoom dx dy : ℚ) : Vec2 :=
  ⟨((x : ℚ) - (offset0 : ℚ)) * zoom - dx, ((y : ℚ) - (offset1 : ℚ)) * zoom - dy⟩

/-- Screen-space center x as the spec words it: `floor(1.3 * width / 2)`. -/
def center_x : ℤ := ⌊(13 / 10 : ℚ) * (width : ℚ) / 2⌋

/-- Screen-space center y as the spec words it: `floor(height / 2)`. -/
def center_y : ℤ := ⌊(height : ℚ) / 2⌋

/-- Pixel-to-complex-plane mapping exactly as §4.2 of the spec words it:
`c = ((x - center_x) * zoom - dx, (y - center_y) * zoom - dy)`. -/
def pixelToC_spec (x y : ℕ) (zoom dx dy : ℚ) : Vec2 :=
  ⟨((x : ℚ) - (center_x : ℚ)) * zoom - dx, ((y : ℚ) - (center_y : ℚ)) * zoom - dy⟩

/-- The reference texture, abstracted to its dimensions and pixel lookup
(loaded from `img/texture.jpg` at src/main.py line 12; contents unknown). -/
structure Texture where
  w : ℕ
  h : ℕ
  px : ℕ → ℕ → ℕ × ℕ × ℕ

/-- Constant `texture_size = min(texture.get_size()) - 1` (src/main.py line 14). -/
def textureSize (t : Texture) : ℕ := min t.w t.h - 1

/-- The color index `col = int(texture_size * num_iter / max_iter)`
(src/main.py line 73): truncation of the nonnegative true quotient, i.e.
floor division. -/
def colorIndex (ts numIter maxIter : ℕ) : ℕ := ts * numIter / maxIter

/-- The color assigned to pixel `(x, y)` by the kernel (src/main.py
lines 59-75): map the pixel to `c`, run the escape loop, derive the color
index and sample the texture at the diagonal position `(col, col)`. -/
def pixelColor (t : Texture) (maxIter : ℕ) (zoom dx dy : ℚ) (x y : ℕ) :
    ℕ × ℕ × ℕ :=
  let c := pixelToC x y zoom dx dy
  let n := num_iter c maxIter
  let col := colorIndex (textureSize t) n maxIter
  t.px col col

/-- One full render pass of the kernel: the pixel buffer, with entry `(x, y)`
holding `pixelColor` of that pixel (src/main.py lines 57-75). -/
def renderFrame (t : Texture) (maxIter : ℕ) (zoom dx dy : ℚ) :
    List (List (ℕ × ℕ × ℕ)) :=
  (List.range width).map fun x =>
    (List.range height).map fun y => pixelColor t maxIter zoom dx dy x y

/-- The mutable parameters of `Fractal` read and written by `control`
(src/main.py lines 38-43): velocity, zoom, pan increment and iteration cap. -/
structure FracState where
  vel : ℚ
  zoom : ℚ
  incX : ℚ
  incY : ℚ
  maxIter : ℤ
  deriving DecidableEq

/-- The pressed/not-pressed state of the 8 logical controls sampled by
`pg.key.get_pressed()` (src/main.py line 79). -/
structure Keys where
  a : Bool
  d : Bool
  w : Bool
  s : Bool
  up : Bool
  down : Bool
  left : Bool
  right : Bool

/-- Constant `self.scale = 0.993` (src/main.py line 39). -/
def scale : ℚ := 993 / 1000

/-- Constant `self.max_iter_limit = 5500` (src/main.py line 43). -/
def max_iter_limit : ℤ := 5500

/-- Constant `self.app_speed = 1 / 4000` (src/main.py line 45). -/
def app_speed : ℚ := 1 / 4000

/-- The initial state set in `Fractal.__init__` (src/main.py lines 38-43):
`vel = 0.01`, `zoom = 2.2 / height`, `increment = (0, 0)`, `max_iter = 30`. -/
def initState : FracState :=
  { vel := 1 / 100
    zoom := (22 / 10) / (height : ℚ)
    incX := 0
    incY := 0
    maxIter := 30 }

/-- One tick of `Fractal.control` (src/main.py lines 78-107): pan by
`vel * dt` per pressed direction key, multiply `zoom` and `vel` by `scale`
on zoom-in and by `2 - scale` on zoom-out, then adjust `max_iter` by ±1 per
pressed arrow key and clamp it into `[2, max_iter_limit]`. -/
def control (k : Keys) (dt : ℚ) (st : FracState) : FracState :=
  let incX := if k.a then st.incX + st.vel * dt else st.incX
  let incX := if k.d then incX - st.vel * dt else incX
  let incY := if k.w then st.incY + st.vel * dt else st.incY
  let incY := if k.s then incY - st.vel * dt else incY
  let zoom := if k.up then st.zoom * scale else st.zoom
  let vel := if k.up then st.vel * scale else st.vel
  let zoom := if k.down then zoom * (2 - scale) else zoom
  let vel := if k.down then vel * (2 - scale) else vel
  let mi := if k.left then st.maxIter - 1 else st.maxIter
  let mi := if k.right then mi + 1 else mi
  let mi := min (max mi 2) max_iter_limit
  ⟨vel, zoom, incX, incY, mi⟩

/-- No control pressed. -/
def noKeys : Keys := ⟨false, false, false, false, false, false, false, false⟩

/-- Only zoom-in (`K_UP`) pressed. -/
def zoomInKeys : Keys := { noKeys with up := true }

/-- Only zoom-out (`K_DOWN`) pressed. -/
def zoomOutKeys : Keys := { noKeys with down := true }

/-- Only increase-iterations (`K_RIGHT`) pressed. -/
def incIterKeys : Keys := { noKeys with right := true }

/-- Only decrease-iterations (`K_LEFT`) pressed. -/
def decIterKeys : Keys := { noKeys with left := true }

/-- Method `Fractal.delta_time` (src/main.py lines 50-54), as a function of the
current tick reading and the stored `prev_time`: it computes
`time_now = ticks - prev_time`, stores `time_now` back into `prev_time`,
and returns `time_now * app_speed`.  Result: (returned delta, new
`prev_time`). -/
def delta_time (ticks prev_time : ℤ) : ℚ × ℤ :=
  let time_now := ticks - prev_time
  ((time_now : ℚ) * app_speed, time_now)

/-- Method `Fractal.update` restricted to its core (src/main.py lines 110-115):
run `control`, then render a frame from the controlled state.  Returns the
state after the frame together with the pixel buffer. -/
def update (k : Keys) (dt : ℚ) (t : Texture) (st : FracState) :
    FracState × List (List (ℕ × ℕ × ℕ)) :=
  let st' := control k dt st
  (st', renderFrame t st'.maxIter.toNat st'.zoom st'.incX st'.incY)

/-- Fold `control` over a whole sequence of (key state, delta) frames. -/
def applyControls (seq : List (Keys × ℚ)) (st : FracState) : FracState :=
  seq.foldl (fun s p => control p.1 p.2 s) st

/-- The effect of one `control` tick on `max_iter` when only the increase
key is pressed: increment by 1, then clamp into `[2, max_iter_limit]`. -/
def incIterStep (m : ℤ) : ℤ := min (max (m + 1) 2) max_iter_limit

/-- The effect of one `control` tick on `max_iter` when only the decrease
key is pressed: decrement by 1, then clamp into `[2, max_iter_limit]`. -/
def decIterStep (m : ℤ) : ℤ := min (max (m - 1) 2) max_iter_limit

/-! ## Helper lemmas -/

/-- The first Mandelbrot step from the origin lands on `c` itself. -/
theorem mandelStep_zero (c : Vec2) : mandelStep ⟨0, 0⟩ c = c := by
  cases c with
  | mk cx cy => simp [mandelStep]

/-- The recurrence maps the origin (as both `z` and `c`) to the origin. -/
theorem mandelStep_origin : mandelStep ⟨0, 0⟩ (⟨0, 0⟩ : Vec2) = ⟨0, 0⟩ :=
  mandelStep_zero ⟨0, 0⟩

/-- The origin does not satisfy the escape condition. -/
theorem dot_origin_not_escaped : ¬ 4 < (Vec2.mk 0 0).dot := by
  norm_num [Vec2.dot]

/-- The escape loop performs at most as many increments as it has fuel. -/
theorem renderLoop_le (c : Vec2) : ∀ (n : ℕ) (z : Vec2) (k : ℕ),
    renderLoop c z k n ≤ k + n := by
  intro n
  induction n with
  | zero => intro z k; simp [renderLoop]
  | succ m ih =>
    intro z k
    simp only [renderLoop]
    split
    · omega
    · have := ih (mandelStep z c) (k + 1)
      omega

/-- For `c = (0, 0)` the loop always runs to exhaustion, adding its fuel
to the running count. -/
theorem renderLoop_origin : ∀ (n k : ℕ),
    renderLoop ⟨0, 0⟩ ⟨0, 0⟩ k n = k + n := by
  intro n
  induction n with
  | zero => intro k; simp [renderLoop]
  | succ m ih =>
    intro k
    simp only [renderLoop, mandelStep_origin]
    rw [if_neg dot_origin_not_escaped]
    rw [ih (k + 1)]
    omega

/-- Every iterate of the recurrence at `c = (0, 0)` is the origin. -/
theorem zIter_origin : ∀ n : ℕ, zIter ⟨0, 0⟩ n = ⟨0, 0⟩ := by
  intro n
  induction n with
  | zero => rfl
  | succ m ih => simp only [zIter, ih, mandelStep_origin]

/-- The point `(3, 0)` lies outside the radius-2 disc: `|c|² > 4`. -/
theorem point_three_zero_outside :
    4 < (Vec2.mk 3 0).x ^ 2 + (Vec2.mk 3 0).y ^ 2 := by
  norm_num

/-! ## Claim theorems -/

/-- C1: in the escape-time loop (with `z` starting at the origin and updated
before the escape test), any point `c` with `|c| > 2` — equivalently
`c.x² + c.y² > 4` — escapes on the very first iteration, so the recorded
iteration count `num_iter` is `0`, for every `max_iterations ≥ 2`. -/
theorem escape_outside_radius_two (c : Vec2) (maxIter : ℕ)
    (h2 : 2 ≤ maxIter) (h4 : 4 < c.x ^ 2 + c.y ^ 2) :
    num_iter c maxIter = 0 := by
  obtain ⟨n, rfl⟩ : ∃ n, maxIter = n + 1 := ⟨maxIter - 1, by omega⟩
  have hd : 4 < (mandelStep ⟨0, 0⟩ c).dot := by
    rw [mandelStep_zero]
    have h : c.x * c.x + c.y * c.y = c.x ^ 2 + c.y ^ 2 := by ring
    simp only [Vec2.dot]
    rw [h]
    exact h4
  simp [num_iter, renderLoop, hd]

/-- C1 witness: `c = (3, 0)` with `max_iterations = 2` satisfies the
hypotheses and yields `num_iter = 0`. -/
theorem escape_outside_radius_two_witness :
    (2 ≤ 2 ∧ 4 < (Vec2.mk 3 0).x ^ 2 + (Vec2.mk 3 0).y ^ 2) ∧
      num_iter ⟨3, 0⟩ 2 = 0 :=
  ⟨⟨by decide, point_three_zero_outside⟩,
    escape_outside_radius_two ⟨3, 0⟩ 2 (by decide) point_three_zero_outside⟩

/-- C2: for `c = (0, 0)` the loop never triggers the escape condition
`|z|² > 4`, and `num_iter` equals `max_iterations` exactly, for every
`max_iterations ≥ 2`. -/
theorem origin_never_escapes (maxIter : ℕ) (h2 : 2 ≤ maxIter) :
    (∀ n : ℕ, ¬ 4 < (zIter ⟨0, 0⟩ n).dot) ∧
      num_iter ⟨0, 0⟩ maxIter = maxIter := by
  constructor
  · intro n
    rw [zIter_origin n]
    exact dot_origin_not_escaped
  · simp [num_iter, renderLoop_origin]

/-- C2 witness: `max_iterations = 2` satisfies the hypothesis, and the
conclusion holds there. -/
theorem origin_never_escapes_witness :
    2 ≤ 2 ∧ ((∀ n : ℕ, ¬ 4 < (zIter ⟨0, 0⟩ n).dot) ∧
      num_iter ⟨0, 0⟩ 2 = 2) :=
  ⟨by decide, origin_never_escapes 2 (by decide)⟩

/-- C3: for every complex point `c` and every `max_iterations ≥ 2`, the
iteration count computed by the escape-time loop satisfies
`0 ≤ num_iter ≤ max_iterations`. -/
theorem num_iter_within_bounds (c : Vec2) (maxIter : ℕ) (h2 : 2 ≤ maxIter) :
    0 ≤ num_iter c maxIter ∧ num_iter c maxIter ≤ maxIter :=
  ⟨Nat.zero_le _, by simpa [num_iter] using renderLoop_le c maxIter ⟨0, 0⟩ 0⟩

/-- C3 witness: at `c = (0, 1)` and `max_iterations = 3` the hypothesis
holds and the count is within bounds. -/
theorem num_iter_within_bounds_witness :
    2 ≤ 3 ∧ (0 ≤ num_iter ⟨0, 1⟩ 3 ∧ num_iter ⟨0, 1⟩ 3 ≤ 3) :=
  ⟨by decide, num_iter_within_bounds ⟨0, 1⟩ 3 (by decide)⟩

/-- C4: the color index `col = ⌊texture_size · num_iter / max_iterations⌋`,
with `texture_size = min(texture_width, texture_height) − 1`, satisfies
`0 ≤ col ≤ texture_size` whenever `num_iter ≤ max_iterations` and
`max_iterations ≥ 2`, and equals `texture_size` exactly at the boundary
`num_iter = max_iterations`. -/
theorem color_index_in_range (t : Texture) (numIter maxIter : ℕ)
    (h2 : 2 ≤ maxIter) (hle : numIter ≤ maxIter) :
    (0 ≤ colorIndex (textureSize t) numIter maxIter ∧
      colorIndex (textureSize t) numIter maxIter ≤ textureSize t) ∧
    (numIter = maxIter →
      colorIndex (textureSize t) numIter maxIter = textureSize t) := by
  have hpos : 0 < maxIter := by omega
  constructor
  · refine ⟨Nat.zero_le _, ?_⟩
    simp only [colorIndex]
    calc textureSize t * numIter / maxIter
        ≤ textureSize t * maxIter / maxIter :=
          Nat.div_le_div_right (Nat.mul_le_mul_left _ hle)
      _ = textureSize t := Nat.mul_div_cancel _ hpos
  · intro h
    subst h
    simp only [colorIndex]
    exact Nat.mul_div_cancel _ hpos

/-- C4 witness: a 101×150 texture (`texture_size = 100`) with
`max_iterations = 30` and `num_iter = 30` hits the boundary case. -/
theorem color_index_in_range_witness :
    (2 ≤ 30 ∧ 30 ≤ 30) ∧
      ((0 ≤ colorIndex (textureSize ⟨101, 150, fun _ _ => (0, 0, 0)⟩) 30 30 ∧
        colorIndex (textureSize ⟨101, 150, fun _ _ => (0, 0, 0)⟩) 30 30 ≤
          textureSize ⟨101, 150, fun _ _ => (0, 0, 0)⟩) ∧
      (30 = 30 →
        colorIndex (textureSize ⟨101, 150, fun _ _ => (0, 0, 0)⟩) 30 30 =
          textureSize ⟨101, 150, fun _ _ => (0, 0, 0)⟩)) :=
  ⟨⟨by decide, by decide⟩,
    color_index_in_range ⟨101, 150, fun _ _ => (0, 0, 0)⟩ 30 30
      (by decide) (by decide)⟩

/-- With only the increase key pressed, `control` leaves everything but
`max_iter` unchanged and applies `incIterStep` to `max_iter`. -/
theorem control_incIter (dt : ℚ) (st : FracState) :
    control incIterKeys dt st =
      ⟨st.vel, st.zoom, st.incX, st.incY, incIterStep st.maxIter⟩ := rfl

/-- With only the decrease key pressed, `control` leaves everything but
`max_iter` unchanged and applies `decIterStep` to `max_iter`. -/
theorem control_decIter (dt : ℚ) (st : FracState) :
    control decIterKeys dt st =
      ⟨st.vel, st.zoom, st.incX, st.incY, decIterStep st.maxIter⟩ := rfl

/-- Iterating increase-only control ticks acts on `max_iter` as iterating
`incIterStep`. -/
theorem iterate_control_incIter (dt : ℚ) : ∀ (n : ℕ) (st : FracState),
    ((control incIterKeys dt)^[n] st).maxIter = incIterStep^[n] st.maxIter := by
  intro n
  induction n with
  | zero => intro st; rfl
  | succ m ih =>
    intro st
    calc ((control incIterKeys dt)^[m + 1] st).maxIter
        = ((control incIterKeys dt)^[m] (control incIterKeys dt st)).maxIter := by
          rw [Function.iterate_succ_apply]
      _ = incIterStep^[m] (control incIterKeys dt st).maxIter := ih _
      _ = incIterStep^[m] (incIterStep st.maxIter) := by rw [control_incIter]
      _ = incIterStep^[m + 1] st.maxIter := (Function.iterate_succ_apply _ _ _).symm

/-- Iterating decrease-only control ticks acts on `max_iter` as iterating
`decIterStep`. -/
theorem iterate_control_decIter (dt : ℚ) : ∀ (n : ℕ) (st : FracState),
    ((control decIterKeys dt)^[n] st).maxIter = decIterStep^[n] st.maxIter := by
  intro n
  induction n with
  | zero => intro st; rfl
  | succ m ih =>
    intro st
    calc ((control decIterKeys dt)^[m + 1] st).maxIter
        = ((control decIterKeys dt)^[m] (control decIterKeys dt st)).maxIter := by
          rw [Function.iterate_succ_apply]
      _ = decIterStep^[m] (control decIterKeys dt st).maxIter := ih _
      _ = decIterStep^[m] (decIterStep st.maxIter) := by rw [control_decIter]
      _ = decIterStep^[m + 1] st.maxIter := (Function.iterate_succ_apply _ _ _).symm

/-- Starting in range, `n` increase ticks move `max_iter` to
`min (m + n) max_iter_limit`. -/
theorem incIterStep_iterate : ∀ (n : ℕ) (m : ℤ),
    2 ≤ m → m ≤ max_iter_limit →
    incIterStep^[n] m = min (m + n) max_iter_limit := by
  intro n
  induction n with
  | zero =>
    intro m h1 h2
    simp only [Function.iterate_zero, id_eq, Nat.cast_zero, add_zero]
    omega
  | succ k ih =>
    intro m h1 h2
    rw [Function.iterate_succ_apply]
    have hstep : incIterStep m = min (m + 1) max_iter_limit := by
      simp only [incIterStep, max_iter_limit] at *
      omega
    have h1' : 2 ≤ incIterStep m := by
      simp only [incIterStep, max_iter_limit] at *
      omega
    have h2' : incIterStep m ≤ max_iter_limit := by
      simp only [incIterStep, max_iter_limit] at *
      omega
    rw [ih _ h1' h2', hstep]
    simp only [max_iter_limit] at *
    omega

/-- From the lower clamp, decrease ticks stay at exactly 2. -/
theorem decIterStep_iterate_two : ∀ n : ℕ, decIterStep^[n] 2 = 2 := by
  intro n
  induction n with
  | zero => rfl
  | succ k ih =>
    rw [Function.iterate_succ_apply]
    have h : decIterStep 2 = 2 := by decide
    rw [h, ih]

/-- One `control` tick maps positive `zoom` and `vel` to positive `zoom`
and `vel` (the only changes are multiplications by `scale = 0.993` or by
`2 - scale`, both positive). -/
theorem control_preserves_pos (k : Keys) (dt : ℚ) (st : FracState)
    (hz : 0 < st.zoom) (hv : 0 < st.vel) :
    0 < (control k dt st).zoom ∧ 0 < (control k dt st).vel := by
  have hs : (0 : ℚ) < scale := by norm_num [scale]
  have hs2 : (0 : ℚ) < 2 - scale := by norm_num [scale]
  rcases k with ⟨a, d, w, s, up, down, left, right⟩
  cases up <;> cases down
  · exact ⟨hz, hv⟩
  · exact ⟨mul_pos hz hs2, mul_pos hv hs2⟩
  · exact ⟨mul_pos hz hs, mul_pos hv hs⟩
  · exact ⟨mul_pos (mul_pos hz hs) hs2, mul_pos (mul_pos hv hs) hs2⟩

/-- C5: the render kernel maps pixel `(x, y)` to the complex-plane point
`((x − center_x) · zoom − dx, (y − center_y) · zoom − dy)` with the fixed
screen-space center `(⌊1.3 · width / 2⌋, ⌊height / 2⌋)` computed once at
startup; concretely the center is `(520, 225)` for the 800×450 display. -/
theorem pixel_mapping_matches_spec :
    (∀ (x y : ℕ) (zoom dx dy : ℚ),
        pixelToC x y zoom dx dy = pixelToC_spec x y zoom dx dy) ∧
    offset0 = center_x ∧ offset1 = center_y ∧
    offset0 = 520 ∧ offset1 = 225 := by
  refine ⟨fun x y zoom dx dy => rfl, rfl, rfl, ?_, ?_⟩
  · have h : (13 / 10 : ℚ) * ((width : ℕ) : ℚ) / 2 = 520 := by
      norm_num [width]
    simp only [offset0, h]
    norm_num
  · have h : ((height : ℕ) : ℚ) / 2 = 225 := by
      norm_num [height]
    simp only [offset1, h]
    norm_num

/-- C6: each control tick changes `max_iter` by exactly 1 per pressed
arrow key and then clamps into `[2, max_iter_limit]`, so
`2 ≤ max_iter ≤ max_iter_limit` holds after every tick for every key
combination; 5600 increase ticks from 30 land exactly on the limit 5500,
and decrease ticks from 2 stay at exactly 2. -/
theorem iteration_cap_clamped :
    (∀ (dt : ℚ) (st : FracState),
        (control incIterKeys dt st).maxIter =
          min (max (st.maxIter + 1) 2) max_iter_limit ∧
        (control decIterKeys dt st).maxIter =
          min (max (st.maxIter - 1) 2) max_iter_limit) ∧
    (∀ (k : Keys) (dt : ℚ) (st : FracState),
        2 ≤ (control k dt st).maxIter ∧
        (control k dt st).maxIter ≤ max_iter_limit) ∧
    (∀ dt : ℚ, ((control incIterKeys dt)^[5600] initState).maxIter = 5500) ∧
    (∀ (dt : ℚ) (n : ℕ),
        ((control decIterKeys dt)^[n] { initState with maxIter := 2 }).maxIter
          = 2) := by
  refine ⟨fun dt st => ⟨rfl, rfl⟩, ?_, ?_, ?_⟩
  · intro k dt st
    rcases st with ⟨v, z, ix, iy, m⟩
    rcases k with ⟨a, d, w, s, up, down, left, right⟩
    cases left <;> cases right <;> simp [control, max_iter_limit] <;> omega
  · intro dt
    rw [iterate_control_incIter dt 5600 initState]
    have h30 : initState.maxIter = 30 := rfl
    rw [h30, incIterStep_iterate 5600 30 (by decide) (by decide)]
    simp only [max_iter_limit]
    norm_num
  · intro dt n
    rw [iterate_control_decIter dt n]
    exact decIterStep_iterate_two n

/-- C7: a zoom-in tick multiplies both `zoom` and `vel` by `scale = 0.993`,
a zoom-out tick multiplies both by `2 − scale`, and composing the two (in
either order) multiplies each by `scale · (2 − scale)`, which differs
from 1, so the composition is not the identity. -/
theorem zoom_velocity_coupling :
    (∀ (dt : ℚ) (st : FracState),
        (control zoomInKeys dt st).zoom = st.zoom * scale ∧
        (control zoomInKeys dt st).vel = st.vel * scale) ∧
    (∀ (dt : ℚ) (st : FracState),
        (control zoomOutKeys dt st).zoom = st.zoom * (2 - scale) ∧
        (control zoomOutKeys dt st).vel = st.vel * (2 - scale)) ∧
    (∀ (dt dt' : ℚ) (st : FracState),
        (control zoomOutKeys dt' (control zoomInKeys dt st)).zoom =
          st.zoom * (scale * (2 - scale)) ∧
        (control zoomOutKeys dt' (control zoomInKeys dt st)).vel =
          st.vel * (scale * (2 - scale)) ∧
        (control zoomInKeys dt' (control zoomOutKeys dt st)).zoom =
          st.zoom * (scale * (2 - scale)) ∧
        (control zoomInKeys dt' (control zoomOutKeys dt st)).vel =
          st.vel * (scale * (2 - scale))) ∧
    scale * (2 - scale) ≠ 1 := by
  refine ⟨fun dt st => ⟨rfl, rfl⟩, fun dt st => ⟨rfl, rfl⟩,
    fun dt dt' st => ⟨?_, ?_, ?_, ?_⟩, ?_⟩
  · show st.zoom * scale * (2 - scale) = st.zoom * (scale * (2 - scale))
    ring
  · show st.vel * scale * (2 - scale) = st.vel * (scale * (2 - scale))
    ring
  · show st.zoom * (2 - scale) * scale = st.zoom * (scale * (2 - scale))
    ring
  · show st.vel * (2 - scale) * scale = st.vel * (scale * (2 - scale))
    ring
  · norm_num [scale]

/-- C8 counterexample: the claim says `delta_time` stores the current
absolute tick reading as the new previous value; at tick reading 100 with
stored previous value 30 the code instead stores `100 − 30 = 70`. -/
theorem delta_time_stores_delta :
    (delta_time 100 30).2 = 70 ∧ (delta_time 100 30).2 ≠ 100 := by
  constructor <;> decide

/-- C8 (amended): each frame `delta_time` derives the delta as the current
tick reading minus the stored previous value and returns it scaled by
`app_speed`; the stored previous value is then updated to the delta itself
(not to the current absolute tick reading), so after a second frame the
stored value is `t2 − (t1 − p0)`, a frame-to-frame measure rather than a
running total. -/
theorem delta_time_behavior (t1 t2 p0 : ℤ) :
    (delta_time t1 p0).1 = ((t1 - p0 : ℤ) : ℚ) * app_speed ∧
    (delta_time t1 p0).2 = t1 - p0 ∧
    (delta_time t2 (delta_time t1 p0).2).2 = t2 - (t1 - p0) :=
  ⟨rfl, rfl, rfl⟩

/-- C9: the render pass is pure and deterministic: the buffer entry at
`(x, y)` is exactly `pixelColor` — a function only of the pixel coordinates,
the parameters and the fixed texture — and the frame update returns the
controlled state unchanged by the render pass (no mutation of the view
state by rendering). -/
theorem render_pure_deterministic (t : Texture) (maxIter : ℕ)
    (zoom dx dy : ℚ) (x y : ℕ) (hx : x < width) (hy : y < height) :
    (((renderFrame t maxIter zoom dx dy).getD x []).getD y (0, 0, 0) =
      pixelColor t maxIter zoom dx dy x y) ∧
    (∀ (k : Keys) (dt : ℚ) (st : FracState),
      (update k dt t st).1 = control k dt st) := by
  constructor
  · have hlen : x < ((List.range width).map fun x =>
        (List.range height).map fun y =>
          pixelColor t maxIter zoom dx dy x y).length := by
      simpa using hx
    simp only [renderFrame]
    rw [List.getD_eq_getElem _ _ hlen]
    simp only [List.getElem_map, List.getElem_range]
    have hlen2 : y < ((List.range height).map fun y =>
        pixelColor t maxIter zoom dx dy x y).length := by
      simpa using hy
    rw [List.getD_eq_getElem _ _ hlen2]
    simp only [List.getElem_map, List.getElem_range]
  · intro k dt st
    rfl

/-- C9 witness: pixel `(0, 0)` of a concrete 2×2 texture frame. -/
theorem render_pure_deterministic_witness :
    (0 < width ∧ 0 < height) ∧
      ((((renderFrame ⟨2, 2, fun _ _ => (1, 2, 3)⟩ 2 1 0 0).getD 0 []).getD 0
          (0, 0, 0) =
        pixelColor ⟨2, 2, fun _ _ => (1, 2, 3)⟩ 2 1 0 0 0 0) ∧
      (∀ (k : Keys) (dt : ℚ) (st : FracState),
        (update k dt ⟨2, 2, fun _ _ => (1, 2, 3)⟩ st).1 = control k dt st)) :=
  ⟨⟨by decide, by decide⟩,
    render_pure_deterministic ⟨2, 2, fun _ _ => (1, 2, 3)⟩ 2 1 0 0 0 0
      (by decide) (by decide)⟩

/-- C10: from the initial state (`zoom = 2.2 / height`, `vel = 0.01`),
`zoom` and `vel` stay strictly positive after every sequence of control
ticks, since each tick either leaves them unchanged or multiplies them by
the positive factors `0.993` or `2 − 0.993`; hence the render kernel's
precondition `zoom > 0` holds in every reachable state. -/
theorem zoom_velocity_always_positive :
    ∀ seq : List (Keys × ℚ),
      0 < (applyControls seq initState).zoom ∧
      0 < (applyControls seq initState).vel := by
  have hmain : ∀ (seq : List (Keys × ℚ)) (st : FracState),
      0 < st.zoom → 0 < st.vel →
      0 < (applyControls seq st).zoom ∧ 0 < (applyControls seq st).vel := by
    intro seq
    induction seq with
    | nil => intro st hz hv; exact ⟨hz, hv⟩
    | cons p rest ih =>
      intro st hz hv
      have h := control_preserves_pos p.1 p.2 st hz hv
      exact ih (control p.1 p.2 st) h.1 h.2
  intro seq
  have hz : 0 < initState.zoom := by norm_num [initState, height]
  have hv : 0 < initState.vel := by norm_num [initState]
  exact hmain seq initState hz hv

end Mandelbrot
